import Mathlib

/-!
Shallow embedding of `main_loader`'s plugin manager (`src/plugin_manager.rs`).

The Rust code manages dynamically loaded plugins: an `EventBus`
(event name → set of subscriber plugin names), a registry
`HashMap<String, PluginEntry>` where an entry holds the plugin instance, the
dynamic-library handle and a `PluginState`, and the lifecycle operations
`load_plugin`, `enable_plugin`, `disable_plugin`, `unload_plugin`,
`load_all_plugins`.

Modelling decisions:
* `HashMap`/`HashSet` become association lists / duplicate-free lists with
  the same insert-replaces / idempotent-insert semantics; iteration order is
  irrelevant to every property proved here.
* The FFI boundary (`Library::new`, symbol resolution, hook calls) is
  modelled by data: opening a path yields `Except String Library`; a
  `Library` optionally provides the `create_plugin` factory and the optional
  `unload_plugin` teardown symbol; each lifecycle hook of a plugin is a
  fixed `Except PluginError Unit` outcome (hooks in the Rust code take
  `&self` and their outcome is opaque to the manager).
* Every operation returns a `Step`: the Rust `Result<()>`, the successor
  manager state, and a trace of the hooks it invoked, so that "hook h was
  (not) invoked" is statable.
-/

namespace MainLoader

/-- `chm_core_define::PluginError` (external crate; variants per the error
taxonomy used by `plugin_manager.rs`: `LoadError`, `EnableError`,
`DisableError`). -/
inductive PluginError where
  | LoadError (msg : String)
  | EnableError (msg : String)
  | DisableError (msg : String)
deriving DecidableEq, Repr

/-- `chm_core_define::plugin_define::Event`. -/
structure Event where
  name : String
  data : List (String × String)
  priority : Int

/-- `PluginState` from `plugin_manager.rs`. -/
inductive PluginState where
  | Unloaded
  | Loaded
  | Enabled
  | Disabled
  | Error (reason : String)
deriving DecidableEq, Repr

/-- A `Box<dyn Plugin>`: the capability record the `create_plugin` factory
returns. Hook outcomes are fixed `Except` values (the manager treats them as
opaque results of calling the hook). -/
structure Plugin where
  name : String
  version : String
  description : String
  subscribed_events : List String
  on_load : Except PluginError Unit
  on_enable : Except PluginError Unit
  on_disable : Except PluginError Unit
  on_unload : Except PluginError Unit
  handle_event : Event → Except PluginError Unit

/-- A `libloading::Library` after a successful open: whether it exports the
`create_plugin` factory (and what that factory returns), and whether it
exports the optional `unload_plugin` teardown symbol. -/
structure Library where
  create_plugin : Option Plugin
  unload_sym : Bool

/-- `PluginEntry` from `plugin_manager.rs`. -/
structure PluginEntry where
  plugin : Plugin
  library : Library
  state : PluginState

/-- Association-list lookup (`HashMap::get`). -/
def lookup' {α : Type} : List (String × α) → String → Option α
  | [], _ => none
  | (k, v) :: rest, n => if k = n then some v else lookup' rest n

/-- Association-list insert-or-replace (`HashMap::insert`: a binding for an
existing key is replaced, i.e. the old value is dropped). -/
def insertR {α : Type} : List (String × α) → String → α → List (String × α)
  | [], k, v => [(k, v)]
  | (k', v') :: rest, k, v =>
      if k' = k then (k, v) :: rest else (k', v') :: insertR rest k v

/-- Association-list removal (`HashMap::remove`). -/
def eraseK {α : Type} (l : List (String × α)) (k : String) : List (String × α) :=
  l.filter (fun p => p.1 ≠ k)

/-- Idempotent set insert (`HashSet::insert`). -/
def setInsert (s : List String) (x : String) : List String :=
  if x ∈ s then s else s ++ [x]

/-- `EventBus` from `plugin_manager.rs`: event name → set of plugin names. -/
structure EventBus where
  subscribers : List (String × List String)

namespace EventBus

/-- `EventBus::new`. -/
def new : EventBus := ⟨[]⟩

/-- `EventBus::subscribe`: get-or-create the event's set, insert the name. -/
def subscribe (b : EventBus) (event plugin : String) : EventBus :=
  ⟨insertR b.subscribers event
     (setInsert ((lookup' b.subscribers event).getD []) plugin)⟩

/-- `EventBus::unsubscribe`: remove the name from the event's set, if any. -/
def unsubscribe (b : EventBus) (event plugin : String) : EventBus :=
  match lookup' b.subscribers event with
  | some s => ⟨insertR b.subscribers event (s.filter (fun q => q ≠ plugin))⟩
  | none => b

/-- `EventBus::get_subscribers` (`unwrap_or_default` on the absent case). -/
def get_subscribers (b : EventBus) (event : String) : List String :=
  (lookup' b.subscribers event).getD []

end EventBus

/-- One hook invocation, recorded in an operation's trace. -/
inductive HookCall where
  | onLoad (plugin : String)
  | onEnable (plugin : String)
  | onDisable (plugin : String)
  | onUnload (plugin : String)
  | libUnload (plugin : String)
  | handleEvent (plugin : String) (event : String)
deriving DecidableEq, Repr

/-- `PluginManager` from `plugin_manager.rs` (the `plugin_dir` path is
supplied to `load_all_plugins` as a `Directory` value instead of being
stored, since only that operation reads it). -/
structure PluginManager where
  plugins : List (String × PluginEntry)
  event_bus : EventBus

/-- Result of one manager operation: the Rust `Result<()>`, the successor
state, and the hooks invoked, in order. -/
structure Step where
  result : Except PluginError Unit
  manager : PluginManager
  trace : List HookCall

namespace PluginManager

/-- `PluginManager::new`. -/
def new : PluginManager := ⟨[], EventBus.new⟩

/-- `PluginManager::enable_plugin` (lines 142–156). -/
def enable_plugin (m : PluginManager) (name : String) : Step :=
  match lookup' m.plugins name with
  | some entry =>
      if entry.state = PluginState.Enabled then
        ⟨Except.ok (), m, []⟩
      else if entry.state = PluginState.Loaded then
        match entry.plugin.on_enable with
        | Except.error e => ⟨Except.error e, m, [HookCall.onEnable name]⟩
        | Except.ok () =>
            ⟨Except.ok (),
             { m with plugins :=
                 insertR m.plugins name { entry with state := PluginState.Enabled } },
             [HookCall.onEnable name]⟩
      else ⟨Except.error (PluginError.EnableError "Can't enable plugin"), m, []⟩
  | none => ⟨Except.error (PluginError.EnableError "Can't enable plugin"), m, []⟩

/-- `PluginManager::disable_plugin` (lines 160–174). -/
def disable_plugin (m : PluginManager) (name : String) : Step :=
  match lookup' m.plugins name with
  | some entry =>
      if entry.state = PluginState.Disabled then
        ⟨Except.ok (), m, []⟩
      else if entry.state = PluginState.Enabled then
        match entry.plugin.on_disable with
        | Except.error e => ⟨Except.error e, m, [HookCall.onDisable name]⟩
        | Except.ok () =>
            ⟨Except.ok (),
             { m with plugins :=
                 insertR m.plugins name { entry with state := PluginState.Disabled } },
             [HookCall.onDisable name]⟩
      else ⟨Except.error (PluginError.DisableError "Can't disable plugin"), m, []⟩
  | none => ⟨Except.error (PluginError.DisableError "Can't disable plugin"), m, []⟩

/-- `PluginManager::unload_plugin` (lines 178–207): snapshot subscriptions,
disable (propagating failure before any removal), unsubscribe the snapshot,
remove the entry, run `on_unload` (its failure propagates after removal),
then best-effort the optional `unload_plugin` library symbol. -/
def unload_plugin (m : PluginManager) (name : String) : Step :=
  match lookup' m.plugins name with
  | none => ⟨Except.ok (), m, []⟩
  | some entry =>
      let events := entry.plugin.subscribed_events
      let d := m.disable_plugin name
      match d.result with
      | Except.error e => ⟨Except.error e, d.manager, d.trace⟩
      | Except.ok () =>
          let m1 := d.manager
          let m2 : PluginManager :=
            { m1 with event_bus :=
                events.foldl (fun b ev => b.unsubscribe ev name) m1.event_bus }
          match lookup' m2.plugins name with
          | some entry2 =>
              let m3 : PluginManager := { m2 with plugins := eraseK m2.plugins name }
              match entry2.plugin.on_unload with
              | Except.error e =>
                  ⟨Except.error e, m3, d.trace ++ [HookCall.onUnload name]⟩
              | Except.ok () =>
                  ⟨Except.ok (), m3,
                   d.trace ++ [HookCall.onUnload name] ++
                     (if entry2.library.unload_sym then [HookCall.libUnload name] else [])⟩
          | none => ⟨Except.ok (), m2, d.trace⟩

/-- `PluginManager::load_plugin` (lines 105–138): open the library, resolve
`create_plugin`, build the instance, run `on_load` (its failure propagates
as-is), subscribe the declared events, insert the entry in state `Loaded`
(replacing any entry of the same name), then call `enable_plugin` on it,
propagating its failure. -/
def load_plugin (m : PluginManager) (input : Except String Library) : Step :=
  match input with
  | Except.error e =>
      ⟨Except.error (PluginError.LoadError ("Failed to load library: " ++ e)), m, []⟩
  | Except.ok lib =>
      match lib.create_plugin with
      | none =>
          ⟨Except.error
             (PluginError.LoadError "Failed to get create_plugin symbol: not found"),
           m, []⟩
      | some plugin =>
          let name := plugin.name
          match plugin.on_load with
          | Except.error e => ⟨Except.error e, m, [HookCall.onLoad name]⟩
          | Except.ok () =>
              let m1 : PluginManager :=
                { plugins :=
                    insertR m.plugins name ⟨plugin, lib, PluginState.Loaded⟩,
                  event_bus :=
                    plugin.subscribed_events.foldl
                      (fun b ev => b.subscribe ev name) m.event_bus }
              let s := m1.enable_plugin name
              ⟨s.result, s.manager, HookCall.onLoad name :: s.trace⟩

/-- `PluginManager::get_plugin` (lines 350–352). -/
def get_plugin (m : PluginManager) (name : String) : Option Plugin :=
  (lookup' m.plugins name).map (fun e => e.plugin)

end PluginManager

/-- One entry produced by iterating the plugin directory: either the
iterator itself errors for this entry, or it yields a path. The outcome of
`is_valid_plugin_file` (extension / regular-file / permission checks, pure
filesystem facts) is carried as the `valid` flag, and what opening the path
with `Library::new` would yield is carried as `input`. -/
inductive DirEntry where
  | readError (msg : String)
  | file (path : String) (valid : Bool) (input : Except String Library)

/-- The plugin directory as `load_all_plugins` observes it. -/
inductive Directory where
  | missing
  | unreadable (msg : String)
  | entries (es : List DirEntry)

/-- Rendering of a `PluginError` into the `{}` of a `format!` string. -/
def PluginError.msg : PluginError → String
  | PluginError.LoadError s => s
  | PluginError.EnableError s => s
  | PluginError.DisableError s => s

/-- Accumulator of the directory loop in `load_all_plugins`: current manager,
the `errors` vector, and the concatenated hook trace. -/
structure BatchAcc where
  manager : PluginManager
  errors : List String
  trace : List HookCall

/-- One iteration of the directory loop in `load_all_plugins`
(lines 280–303): a read error is collected; an invalid file is skipped; a
valid file is loaded, collecting any failure, and the loop continues. -/
def loadAllStep (acc : BatchAcc) (e : DirEntry) : BatchAcc :=
  match e with
  | DirEntry.readError msg =>
      { acc with errors :=
          acc.errors ++ ["Failed to read directory entry: " ++ msg] }
  | DirEntry.file path valid input =>
      if valid then
        let s := acc.manager.load_plugin input
        match s.result with
        | Except.error err =>
            { manager := s.manager,
              errors := acc.errors ++
                ["Failed to load plugin from " ++ path ++ ": " ++ err.msg],
              trace := acc.trace ++ s.trace }
        | Except.ok () =>
            { acc with manager := s.manager, trace := acc.trace ++ s.trace }
      else acc

namespace PluginManager

/-- `PluginManager::load_all_plugins` (lines 258–314): a missing or
unreadable directory is fatal; otherwise every entry goes through the loop,
and if any errors were collected a single aggregate `LoadError` joining them
is returned. -/
def load_all_plugins (m : PluginManager) (dir : Directory) : Step :=
  match dir with
  | Directory.missing =>
      ⟨Except.error (PluginError.LoadError "Plugin directory does not exist"), m, []⟩
  | Directory.unreadable e =>
      ⟨Except.error
         (PluginError.LoadError ("Failed to read plugin directory: " ++ e)), m, []⟩
  | Directory.entries es =>
      let acc := es.foldl loadAllStep ⟨m, [], []⟩
      if acc.errors = [] then ⟨Except.ok (), acc.manager, acc.trace⟩
      else
        ⟨Except.error
           (PluginError.LoadError
             ("Failed to load some plugins:\n" ++ String.intercalate "\n" acc.errors)),
         acc.manager, acc.trace⟩

/-- Modelled from the spec: `broadcast_event` exists in
`plugin_manager.rs` only as commented-out code (lines 212–237); the spec's
§4.4 describes exactly that variant. Resolve the event's subscribers, keep
those whose registry entry is currently `Enabled` (Loaded/Disabled/absent
are skipped), order ascending by each plugin's own subscription count, and
deliver via `handle_event`, isolating per-recipient failures. -/
def broadcast_event (m : PluginManager) (event : Event) : Step :=
  let subscribers := m.event_bus.get_subscribers event.name
  let enabled := subscribers.filterMap (fun name =>
    match lookup' m.plugins name with
    | some entry =>
        if entry.state = PluginState.Enabled then some (name, entry) else none
    | none => none)
  let sorted := enabled.mergeSort (fun a b =>
    a.2.plugin.subscribed_events.length ≤ b.2.plugin.subscribed_events.length)
  ⟨Except.ok (), m, sorted.map (fun p => HookCall.handleEvent p.1 event.name)⟩

end PluginManager

/-! ### Association-list lemmas -/

theorem lookup'_insertR_self {α : Type} (l : List (String × α)) (k : String) (v : α) :
    lookup' (insertR l k v) k = some v := by
  induction l with
  | nil => simp [insertR, lookup']
  | cons hd tl ih =>
      by_cases h : hd.1 = k
      · simp [insertR, h, lookup']
      · simpa [insertR, h, lookup'] using ih

theorem lookup'_insertR_ne {α : Type} (l : List (String × α)) (k k' : String) (v : α)
    (h : k' ≠ k) : lookup' (insertR l k v) k' = lookup' l k' := by
  have h' : k ≠ k' := Ne.symm h
  induction l with
  | nil => simp [insertR, lookup', h']
  | cons hd tl ih =>
      by_cases hk : hd.1 = k
      · simp [insertR, hk, lookup', h']
      · by_cases hk' : hd.1 = k'
        · simp [insertR, hk, lookup', hk', h]
        · simp [insertR, hk, lookup', hk', ih]

theorem lookup'_eraseK_self {α : Type} (l : List (String × α)) (k : String) :
    lookup' (eraseK l k) k = none := by
  induction l with
  | nil => simp [eraseK, lookup']
  | cons hd tl ih =>
      by_cases h : hd.1 = k
      · simpa [eraseK, List.filter_cons, h, lookup'] using ih
      · simpa [eraseK, List.filter_cons, h, lookup'] using ih

theorem lookup'_eraseK_ne {α : Type} (l : List (String × α)) (k k' : String)
    (h : k' ≠ k) : lookup' (eraseK l k) k' = lookup' l k' := by
  have h' : k ≠ k' := Ne.symm h
  induction l with
  | nil => simp [eraseK, lookup']
  | cons hd tl ih =>
      by_cases hk : hd.1 = k
      · simpa [eraseK, List.filter_cons, hk, lookup', h'] using ih
      · by_cases hk' : hd.1 = k'
        · simp [eraseK, List.filter_cons, hk, lookup', hk', h]
        · simpa [eraseK, List.filter_cons, hk, lookup', hk'] using ih

/-! ### EventBus lemmas -/

theorem mem_setInsert_self (s : List String) (x : String) : x ∈ setInsert s x := by
  unfold setInsert
  split
  · assumption
  · simp

theorem mem_setInsert_of_mem (s : List String) (x y : String) (h : x ∈ s) :
    x ∈ setInsert s y := by
  unfold setInsert
  split
  · exact h
  · exact List.mem_append_left _ h

theorem mem_get_subscribers_subscribe_self (b : EventBus) (ev p : String) :
    p ∈ (b.subscribe ev p).get_subscribers ev := by
  unfold EventBus.subscribe EventBus.get_subscribers
  simp only [lookup'_insertR_self, Option.getD_some]
  exact mem_setInsert_self _ _

theorem mem_get_subscribers_subscribe_of_mem (b : EventBus) (e p ev x : String)
    (h : x ∈ b.get_subscribers ev) : x ∈ (b.subscribe e p).get_subscribers ev := by
  unfold EventBus.subscribe EventBus.get_subscribers at *
  by_cases hev : ev = e
  · subst hev
    simp only [lookup'_insertR_self, Option.getD_some]
    rcases hl : lookup' b.subscribers ev with _ | s
    · rw [hl] at h
      cases h
    · rw [hl] at h
      exact mem_setInsert_of_mem _ _ _ h
  · rw [lookup'_insertR_ne _ _ _ _ hev]
    exact h

theorem mem_get_subscribers_foldl_subscribe_of_mem (events : List String)
    (b : EventBus) (p ev x : String) (h : x ∈ b.get_subscribers ev) :
    x ∈ (events.foldl (fun b e => b.subscribe e p) b).get_subscribers ev := by
  induction events generalizing b with
  | nil => simpa using h
  | cons e es ih =>
      simp only [List.foldl_cons]
      exact ih _ (mem_get_subscribers_subscribe_of_mem _ _ _ _ _ h)

theorem mem_get_subscribers_foldl_subscribe (events : List String) (b : EventBus)
    (p ev : String) (hev : ev ∈ events) :
    p ∈ (events.foldl (fun b e => b.subscribe e p) b).get_subscribers ev := by
  induction events generalizing b with
  | nil => cases hev
  | cons e es ih =>
      simp only [List.foldl_cons]
      rcases List.mem_cons.mp hev with h | h
      · subst h
        exact mem_get_subscribers_foldl_subscribe_of_mem es _ p ev p
          (mem_get_subscribers_subscribe_self b ev p)
      · exact ih _ h

theorem mem_get_subscribers_unsubscribe (b : EventBus) (e p ev x : String)
    (h : x ∈ (b.unsubscribe e p).get_subscribers ev) :
    x ∈ b.get_subscribers ev ∧ ¬(ev = e ∧ x = p) := by
  unfold EventBus.unsubscribe at h
  rcases hl : lookup' b.subscribers e with _ | s
  · rw [hl] at h
    refine ⟨h, ?_⟩
    rintro ⟨rfl, rfl⟩
    unfold EventBus.get_subscribers at h
    rw [hl] at h
    cases h
  · rw [hl] at h
    unfold EventBus.get_subscribers at *
    by_cases hev : ev = e
    · subst hev
      simp only [lookup'_insertR_self, Option.getD_some] at h
      rw [hl]
      have hm := List.mem_filter.mp h
      refine ⟨hm.1, ?_⟩
      rintro ⟨-, rfl⟩
      have h2 := hm.2
      simp at h2
    · rw [lookup'_insertR_ne _ _ _ _ hev] at h
      exact ⟨h, fun hc => hev hc.1⟩

theorem not_mem_get_subscribers_foldl_unsubscribe (events : List String)
    (b : EventBus) (p ev : String)
    (h : ev ∈ events ∨ p ∉ b.get_subscribers ev) :
    p ∉ (events.foldl (fun b e => b.unsubscribe e p) b).get_subscribers ev := by
  induction events generalizing b with
  | nil =>
      rcases h with h | h
      · cases h
      · simpa using h
  | cons e es ih =>
      simp only [List.foldl_cons]
      rcases h with h | h
      · rcases List.mem_cons.mp h with h | h
        · subst h
          refine ih _ (Or.inr ?_)
          intro hmem
          exact (mem_get_subscribers_unsubscribe b ev p ev p hmem).2 ⟨rfl, rfl⟩
        · exact ih _ (Or.inl h)
      · refine ih _ (Or.inr ?_)
        intro hmem
        exact h (mem_get_subscribers_unsubscribe b e p ev p hmem).1

theorem lookup'_insertR_isSome {α : Type} (l : List (String × α)) (k n : String)
    (v : α) (hk : (lookup' l k).isSome = true) :
    (lookup' (insertR l k v) n).isSome = (lookup' l n).isSome := by
  by_cases h : n = k
  · subst h
    rw [lookup'_insertR_self, Option.isSome_some, hk]
  · rw [lookup'_insertR_ne _ _ _ _ h]

/-! ### Characterizations of the lifecycle operations -/

namespace PluginManager

theorem enable_plugin_absent (m : PluginManager) (name : String)
    (h : lookup' m.plugins name = none) :
    m.enable_plugin name =
      ⟨Except.error (PluginError.EnableError "Can't enable plugin"), m, []⟩ := by
  unfold enable_plugin
  rw [h]

theorem enable_plugin_enabled (m : PluginManager) (name : String)
    (entry : PluginEntry) (h : lookup' m.plugins name = some entry)
    (hs : entry.state = PluginState.Enabled) :
    m.enable_plugin name = ⟨Except.ok (), m, []⟩ := by
  unfold enable_plugin
  rw [h]
  simp [hs]

theorem enable_plugin_loaded_ok (m : PluginManager) (name : String)
    (entry : PluginEntry) (h : lookup' m.plugins name = some entry)
    (hs : entry.state = PluginState.Loaded)
    (hh : entry.plugin.on_enable = Except.ok ()) :
    m.enable_plugin name =
      ⟨Except.ok (),
       { m with plugins :=
           insertR m.plugins name { entry with state := PluginState.Enabled } },
       [HookCall.onEnable name]⟩ := by
  unfold enable_plugin
  rw [h]
  simp [hs, hh]

theorem enable_plugin_loaded_err (m : PluginManager) (name : String)
    (entry : PluginEntry) (e : PluginError)
    (h : lookup' m.plugins name = some entry)
    (hs : entry.state = PluginState.Loaded)
    (hh : entry.plugin.on_enable = Except.error e) :
    m.enable_plugin name = ⟨Except.error e, m, [HookCall.onEnable name]⟩ := by
  unfold enable_plugin
  rw [h]
  simp [hs, hh]

theorem disable_plugin_absent (m : PluginManager) (name : String)
    (h : lookup' m.plugins name = none) :
    m.disable_plugin name =
      ⟨Except.error (PluginError.DisableError "Can't disable plugin"), m, []⟩ := by
  unfold disable_plugin
  rw [h]

theorem disable_plugin_disabled (m : PluginManager) (name : String)
    (entry : PluginEntry) (h : lookup' m.plugins name = some entry)
    (hs : entry.state = PluginState.Disabled) :
    m.disable_plugin name = ⟨Except.ok (), m, []⟩ := by
  unfold disable_plugin
  rw [h]
  simp [hs]

theorem disable_plugin_enabled_ok (m : PluginManager) (name : String)
    (entry : PluginEntry) (h : lookup' m.plugins name = some entry)
    (hs : entry.state = PluginState.Enabled)
    (hh : entry.plugin.on_disable = Except.ok ()) :
    m.disable_plugin name =
      ⟨Except.ok (),
       { m with plugins :=
           insertR m.plugins name { entry with state := PluginState.Disabled } },
       [HookCall.onDisable name]⟩ := by
  unfold disable_plugin
  rw [h]
  simp [hs, hh]

theorem disable_plugin_enabled_err (m : PluginManager) (name : String)
    (entry : PluginEntry) (e : PluginError)
    (h : lookup' m.plugins name = some entry)
    (hs : entry.state = PluginState.Enabled)
    (hh : entry.plugin.on_disable = Except.error e) :
    m.disable_plugin name = ⟨Except.error e, m, [HookCall.onDisable name]⟩ := by
  unfold disable_plugin
  rw [h]
  simp [hs, hh]

theorem disable_plugin_other (m : PluginManager) (name : String)
    (entry : PluginEntry) (h : lookup' m.plugins name = some entry)
    (hs1 : entry.state ≠ PluginState.Disabled)
    (hs2 : entry.state ≠ PluginState.Enabled) :
    m.disable_plugin name =
      ⟨Except.error (PluginError.DisableError "Can't disable plugin"), m, []⟩ := by
  unfold disable_plugin
  rw [h]
  simp [hs1, hs2]

end PluginManager

/-- `true` iff the error is the `LoadError` variant. -/
def PluginError.isLoadError : PluginError → Bool
  | PluginError.LoadError _ => true
  | _ => false

namespace PluginManager

theorem load_plugin_openFail (m : PluginManager) (e : String) :
    m.load_plugin (Except.error e) =
      ⟨Except.error (PluginError.LoadError ("Failed to load library: " ++ e)),
       m, []⟩ := rfl

theorem load_plugin_noFactory (m : PluginManager) (lib : Library)
    (h : lib.create_plugin = none) :
    m.load_plugin (Except.ok lib) =
      ⟨Except.error
         (PluginError.LoadError "Failed to get create_plugin symbol: not found"),
       m, []⟩ := by
  obtain ⟨cp, us⟩ := lib
  simp only at h
  subst h
  rfl

theorem load_plugin_onLoadFail (m : PluginManager) (lib : Library) (pl : Plugin)
    (e : PluginError) (hc : lib.create_plugin = some pl)
    (hl : pl.on_load = Except.error e) :
    m.load_plugin (Except.ok lib) =
      ⟨Except.error e, m, [HookCall.onLoad pl.name]⟩ := by
  obtain ⟨cp, us⟩ := lib
  simp only at hc
  subst hc
  obtain ⟨n, v, d, se, ol, oe, od, ou, he⟩ := pl
  simp only at hl
  subst hl
  rfl

/-- After a successful `on_load`, `load_plugin` subscribes the declared
events, inserts the entry in state `Loaded` and finishes with the result of
`enable_plugin` on the new state. -/
theorem load_plugin_ok_hook (m : PluginManager) (lib : Library) (pl : Plugin)
    (hc : lib.create_plugin = some pl) (hl : pl.on_load = Except.ok ()) :
    m.load_plugin (Except.ok lib) =
      (let m1 : PluginManager :=
        { plugins := insertR m.plugins pl.name ⟨pl, lib, PluginState.Loaded⟩,
          event_bus := pl.subscribed_events.foldl
            (fun b ev => b.subscribe ev pl.name) m.event_bus }
       let s := m1.enable_plugin pl.name
       ⟨s.result, s.manager, HookCall.onLoad pl.name :: s.trace⟩) := by
  obtain ⟨cp, us⟩ := lib
  simp only at hc
  subst hc
  obtain ⟨n, v, d, se, ol, oe, od, ou, he⟩ := pl
  simp only at hl
  subst hl
  rfl

end PluginManager

theorem lookup'_insertR_isSome_of {α : Type} (l : List (String × α)) (k n : String)
    (v : α) (h : (lookup' l n).isSome = true) :
    (lookup' (insertR l k v) n).isSome = true := by
  by_cases hn : n = k
  · subst hn
    rw [lookup'_insertR_self]
    rfl
  · rw [lookup'_insertR_ne _ _ _ _ hn]
    exact h

namespace PluginManager

theorem enable_plugin_other (m : PluginManager) (name : String)
    (entry : PluginEntry) (h : lookup' m.plugins name = some entry)
    (hs1 : entry.state ≠ PluginState.Enabled)
    (hs2 : entry.state ≠ PluginState.Loaded) :
    m.enable_plugin name =
      ⟨Except.error (PluginError.EnableError "Can't enable plugin"), m, []⟩ := by
  unfold enable_plugin
  rw [h]
  simp [hs1, hs2]

/-- `enable_plugin` never adds or removes a registry binding. -/
theorem enable_plugin_preserves_isSome (m : PluginManager) (name n : String) :
    (lookup' (m.enable_plugin name).manager.plugins n).isSome =
      (lookup' m.plugins n).isSome := by
  rcases h : lookup' m.plugins name with _ | entry
  · rw [m.enable_plugin_absent name h]
  · by_cases hs : entry.state = PluginState.Enabled
    · rw [m.enable_plugin_enabled name entry h hs]
    · by_cases hl : entry.state = PluginState.Loaded
      · rcases he : entry.plugin.on_enable with e | u
        · rw [m.enable_plugin_loaded_err name entry e h hl he]
        · cases u
          rw [m.enable_plugin_loaded_ok name entry h hl he]
          exact lookup'_insertR_isSome _ _ _ _ (by rw [h]; rfl)
      · rw [m.enable_plugin_other name entry h hs hl]

/-- `enable_plugin name` leaves every binding other than `name` unchanged. -/
theorem enable_plugin_preserves_ne (m : PluginManager) (name n : String)
    (hn : n ≠ name) :
    lookup' (m.enable_plugin name).manager.plugins n = lookup' m.plugins n := by
  rcases h : lookup' m.plugins name with _ | entry
  · rw [m.enable_plugin_absent name h]
  · by_cases hs : entry.state = PluginState.Enabled
    · rw [m.enable_plugin_enabled name entry h hs]
    · by_cases hl : entry.state = PluginState.Loaded
      · rcases he : entry.plugin.on_enable with e | u
        · rw [m.enable_plugin_loaded_err name entry e h hl he]
        · cases u
          rw [m.enable_plugin_loaded_ok name entry h hl he]
          exact lookup'_insertR_ne _ _ _ _ hn
      · rw [m.enable_plugin_other name entry h hs hl]

/-- `disable_plugin` never adds or removes a registry binding. -/
theorem disable_plugin_preserves_isSome (m : PluginManager) (name n : String) :
    (lookup' (m.disable_plugin name).manager.plugins n).isSome =
      (lookup' m.plugins n).isSome := by
  rcases h : lookup' m.plugins name with _ | entry
  · rw [m.disable_plugin_absent name h]
  · by_cases hs : entry.state = PluginState.Disabled
    · rw [m.disable_plugin_disabled name entry h hs]
    · by_cases hl : entry.state = PluginState.Enabled
      · rcases he : entry.plugin.on_disable with e | u
        · rw [m.disable_plugin_enabled_err name entry e h hl he]
        · cases u
          rw [m.disable_plugin_enabled_ok name entry h hl he]
          exact lookup'_insertR_isSome _ _ _ _ (by rw [h]; rfl)
      · rw [m.disable_plugin_other name entry h hs hl]

/-- A present binding stays present across any `load_plugin` call
(possibly replaced, when the loaded plugin reports the same name). -/
theorem load_plugin_preserves_present (m : PluginManager)
    (input : Except String Library) (n : String)
    (h : (lookup' m.plugins n).isSome = true) :
    (lookup' (m.load_plugin input).manager.plugins n).isSome = true := by
  rcases input with e | lib
  · rw [m.load_plugin_openFail e]
    exact h
  · rcases hc : lib.create_plugin with _ | pl
    · rw [m.load_plugin_noFactory lib hc]
      exact h
    · rcases hl : pl.on_load with e | u
      · rw [m.load_plugin_onLoadFail lib pl e hc hl]
        exact h
      · cases u
        rw [m.load_plugin_ok_hook lib pl hc hl]
        simp only
        rw [enable_plugin_preserves_isSome]
        exact lookup'_insertR_isSome_of _ _ _ _ h

/-- `load_plugin` leaves every binding other than the loaded plugin's
reported name unchanged. -/
theorem load_plugin_preserves_other (m : PluginManager) (lib : Library)
    (pl : Plugin) (n : String) (hc : lib.create_plugin = some pl)
    (hn : n ≠ pl.name) :
    lookup' (m.load_plugin (Except.ok lib)).manager.plugins n =
      lookup' m.plugins n := by
  rcases hl : pl.on_load with e | u
  · rw [m.load_plugin_onLoadFail lib pl e hc hl]
  · cases u
    rw [m.load_plugin_ok_hook lib pl hc hl]
    simp only
    rw [enable_plugin_preserves_ne _ _ _ hn]
    exact lookup'_insertR_ne _ _ _ _ hn

/-- After `on_load` succeeded, the loaded plugin's name is registered,
whether or not the subsequent enable step succeeded. -/
theorem load_plugin_inserts (m : PluginManager) (lib : Library) (pl : Plugin)
    (hc : lib.create_plugin = some pl) (hl : pl.on_load = Except.ok ()) :
    (lookup' (m.load_plugin (Except.ok lib)).manager.plugins pl.name).isSome =
      true := by
  rw [m.load_plugin_ok_hook lib pl hc hl]
  simp only
  rw [enable_plugin_preserves_isSome]
  rw [lookup'_insertR_self]
  rfl

end PluginManager

/-! ### Concrete test fixtures -/

/-- A test plugin whose hooks all succeed. -/
def mkPlugin (n : String) (events : List String) : Plugin :=
  { name := n, version := "0.1", description := "a test plugin",
    subscribed_events := events,
    on_load := Except.ok (), on_enable := Except.ok (),
    on_disable := Except.ok (), on_unload := Except.ok (),
    handle_event := fun _ => Except.ok () }

/-- A library exporting `create_plugin` yielding `p`, without the optional
`unload_plugin` symbol. -/
def mkLib (p : Plugin) : Library := ⟨some p, false⟩

/-! ### C1 -/

/-- A manager holding one plugin `"q"` still in state `Loaded` (it was
loaded but never enabled, as happens when `on_enable` failed during
`load_plugin`). -/
def C1loadedEntry : PluginEntry :=
  ⟨mkPlugin "q" ["e1"], mkLib (mkPlugin "q" ["e1"]), PluginState.Loaded⟩

def C1loadedMgr : PluginManager := ⟨[("q", C1loadedEntry)], EventBus.new⟩

/-- C1, counterexample: for a registered plugin in state `Loaded` (never
enabled), `unload_plugin` does NOT remove the entry and does NOT invoke
`on_unload`: the internal `disable_plugin` call fails with `DisableError`
(a `Loaded` entry is neither `Disabled` nor `Enabled`) and `?` aborts the
unload before removal, so the claim's "unload succeeds in removing the
entry for a plugin whose state is Loaded" is false. -/
theorem C1_counterexample :
    (C1loadedMgr.unload_plugin "q").result =
      Except.error (PluginError.DisableError "Can't disable plugin") ∧
    ((lookup' (C1loadedMgr.unload_plugin "q").manager.plugins "q").map
       (fun e => e.state)) = some PluginState.Loaded ∧
    HookCall.onUnload "q" ∉ (C1loadedMgr.unload_plugin "q").trace := by
  refine ⟨rfl, rfl, ?_⟩
  decide

/-- C1, amended: for every registered plugin name whose disable step
succeeds — i.e. whose state is `Disabled`, or `Enabled` with a succeeding
`on_disable` hook — `unload_plugin` invokes the plugin's `on_unload` hook
and removes the entry from the registry (for a `Loaded`, never-enabled
entry the internal disable fails and unload aborts instead). -/
theorem C1_unload_removes_entry (m : PluginManager) (name : String)
    (entry : PluginEntry) (h : lookup' m.plugins name = some entry)
    (hd : entry.state = PluginState.Disabled ∨
          (entry.state = PluginState.Enabled ∧
           entry.plugin.on_disable = Except.ok ())) :
    HookCall.onUnload name ∈ (m.unload_plugin name).trace ∧
    lookup' (m.unload_plugin name).manager.plugins name = none := by
  unfold PluginManager.unload_plugin
  rw [h]
  rcases hd with hs | ⟨hs, hh⟩
  · rw [PluginManager.disable_plugin_disabled m name entry h hs]
    simp only
    rw [h]
    rcases hu : entry.plugin.on_unload with e | u <;>
      simp [hu, lookup'_eraseK_self]
  · rw [PluginManager.disable_plugin_enabled_ok m name entry h hs hh]
    simp only
    rw [lookup'_insertR_self]
    rcases hu : entry.plugin.on_unload with e | u <;>
      simp [hu, lookup'_eraseK_self]

/-- An enabled plugin `"p"`, for the C1 witness. -/
def C1enabledEntry : PluginEntry :=
  ⟨mkPlugin "p" ["e1"], mkLib (mkPlugin "p" ["e1"]), PluginState.Enabled⟩

def C1enabledMgr : PluginManager := ⟨[("p", C1enabledEntry)], EventBus.new⟩

theorem C1_witness :
    lookup' C1enabledMgr.plugins "p" = some C1enabledEntry ∧
    (HookCall.onUnload "p" ∈ (C1enabledMgr.unload_plugin "p").trace ∧
     lookup' (C1enabledMgr.unload_plugin "p").manager.plugins "p" = none) :=
  ⟨rfl, C1_unload_removes_entry C1enabledMgr "p" C1enabledEntry rfl
          (Or.inr ⟨rfl, rfl⟩)⟩

/-! ### C7 -/

/-- C7: for every name absent from the registry, `enable_plugin` returns
`EnableError`, `disable_plugin` returns `DisableError`, and `unload_plugin`
returns success, each leaving the whole manager (registry and `EventBus`)
unchanged and invoking no hook. -/
theorem C7_absent_name (m : PluginManager) (name : String)
    (h : lookup' m.plugins name = none) :
    m.enable_plugin name =
      ⟨Except.error (PluginError.EnableError "Can't enable plugin"), m, []⟩ ∧
    m.disable_plugin name =
      ⟨Except.error (PluginError.DisableError "Can't disable plugin"), m, []⟩ ∧
    m.unload_plugin name = ⟨Except.ok (), m, []⟩ := by
  refine ⟨m.enable_plugin_absent name h, m.disable_plugin_absent name h, ?_⟩
  unfold PluginManager.unload_plugin
  rw [h]

theorem C7_witness :
    lookup' C1enabledMgr.plugins "ghost" = none ∧
    (C1enabledMgr.enable_plugin "ghost" =
       ⟨Except.error (PluginError.EnableError "Can't enable plugin"),
        C1enabledMgr, []⟩ ∧
     C1enabledMgr.disable_plugin "ghost" =
       ⟨Except.error (PluginError.DisableError "Can't disable plugin"),
        C1enabledMgr, []⟩ ∧
     C1enabledMgr.unload_plugin "ghost" = ⟨Except.ok (), C1enabledMgr, []⟩) :=
  ⟨rfl, C7_absent_name C1enabledMgr "ghost" rfl⟩

/-! ### C8 -/

/-- C8: `enable_plugin` is idempotent. For a plugin currently `Enabled`,
enabling again returns success with no hook invocation and an unchanged
manager; and for a `Loaded` plugin whose `on_enable` succeeds, two
consecutive enables both succeed and invoke `on_enable` exactly once in
total. -/
theorem C8_enable_idempotent (m : PluginManager) (name : String)
    (entry : PluginEntry) (h : lookup' m.plugins name = some entry) :
    (entry.state = PluginState.Enabled →
       m.enable_plugin name = ⟨Except.ok (), m, []⟩) ∧
    (entry.state = PluginState.Loaded → entry.plugin.on_enable = Except.ok () →
       (m.enable_plugin name).result = Except.ok () ∧
       ((m.enable_plugin name).manager.enable_plugin name).result =
         Except.ok () ∧
       ((m.enable_plugin name).trace ++
          ((m.enable_plugin name).manager.enable_plugin name).trace).count
         (HookCall.onEnable name) = 1) := by
  constructor
  · intro hs
    exact m.enable_plugin_enabled name entry h hs
  · intro hs hh
    rw [m.enable_plugin_loaded_ok name entry h hs hh]
    simp only
    have h2 : lookup'
        (insertR m.plugins name { entry with state := PluginState.Enabled })
        name = some { entry with state := PluginState.Enabled } :=
      lookup'_insertR_self _ _ _
    rw [PluginManager.enable_plugin_enabled _ name _ h2 rfl]
    simp

def C8loadedEntry : PluginEntry :=
  ⟨mkPlugin "p" ["e1"], mkLib (mkPlugin "p" ["e1"]), PluginState.Loaded⟩

def C8loadedMgr : PluginManager := ⟨[("p", C8loadedEntry)], EventBus.new⟩

theorem C8_witness :
    (lookup' C1enabledMgr.plugins "p" = some C1enabledEntry ∧
     C1enabledMgr.enable_plugin "p" = ⟨Except.ok (), C1enabledMgr, []⟩) ∧
    (lookup' C8loadedMgr.plugins "p" = some C8loadedEntry ∧
     (C8loadedMgr.enable_plugin "p").result = Except.ok () ∧
     ((C8loadedMgr.enable_plugin "p").manager.enable_plugin "p").result =
       Except.ok () ∧
     ((C8loadedMgr.enable_plugin "p").trace ++
        ((C8loadedMgr.enable_plugin "p").manager.enable_plugin "p").trace).count
       (HookCall.onEnable "p") = 1) :=
  ⟨⟨rfl, (C8_enable_idempotent C1enabledMgr "p" C1enabledEntry rfl).1 rfl⟩,
   ⟨rfl, (C8_enable_idempotent C8loadedMgr "p" C8loadedEntry rfl).2 rfl rfl⟩⟩

/-! ### C2 -/

/-- A plugin whose `on_load` hook fails with a non-`LoadError` error. -/
def C2plugin : Plugin :=
  { mkPlugin "r" [] with
      on_load := Except.error (PluginError.EnableError "on_load refused") }

/-- C2, counterexample: a failure of `load_plugin` need not be a
`LoadError`: when the plugin's `on_load` hook fails, `plugin.on_load()?`
propagates the hook's own error value unchanged, so `load_plugin` here
returns an `EnableError`. -/
theorem C2_counterexample :
    (PluginManager.new.load_plugin (Except.ok (mkLib C2plugin))).result =
      Except.error (PluginError.EnableError "on_load refused") ∧
    PluginError.isLoadError (PluginError.EnableError "on_load refused") = false :=
  ⟨rfl, rfl⟩

/-- C2, amended: the two loader-step failures — library open failure and a
missing `create_plugin` export — are reported as `LoadError` carrying a
human-readable message, but an `on_load` hook failure is propagated to the
caller unchanged (whatever variant the hook returned), so `load_plugin`
failures are not uniformly `LoadError`. -/
theorem C2_load_error_variants :
    (∀ (m : PluginManager) (e : String),
        (m.load_plugin (Except.error e)).result =
          Except.error (PluginError.LoadError ("Failed to load library: " ++ e))) ∧
    (∀ (m : PluginManager) (lib : Library), lib.create_plugin = none →
        (m.load_plugin (Except.ok lib)).result =
          Except.error (PluginError.LoadError
            "Failed to get create_plugin symbol: not found")) ∧
    (∀ (m : PluginManager) (lib : Library) (pl : Plugin) (e : PluginError),
        lib.create_plugin = some pl → pl.on_load = Except.error e →
        (m.load_plugin (Except.ok lib)).result = Except.error e) := by
  refine ⟨fun m e => rfl, fun m lib h => ?_, fun m lib pl e hc hl => ?_⟩
  · rw [m.load_plugin_noFactory lib h]
  · rw [m.load_plugin_onLoadFail lib pl e hc hl]

theorem C2_witness :
    (mkLib C2plugin).create_plugin = some C2plugin ∧
    C2plugin.on_load = Except.error (PluginError.EnableError "on_load refused") ∧
    (PluginManager.new.load_plugin (Except.error "no such file")).result =
      Except.error
        (PluginError.LoadError "Failed to load library: no such file") ∧
    (PluginManager.new.load_plugin (Except.ok ⟨none, false⟩)).result =
      Except.error
        (PluginError.LoadError "Failed to get create_plugin symbol: not found") ∧
    (PluginManager.new.load_plugin (Except.ok (mkLib C2plugin))).result =
      Except.error (PluginError.EnableError "on_load refused") :=
  ⟨rfl, rfl,
   C2_load_error_variants.1 PluginManager.new "no such file",
   C2_load_error_variants.2.1 PluginManager.new ⟨none, false⟩ rfl,
   C2_load_error_variants.2.2 PluginManager.new (mkLib C2plugin) C2plugin
     (PluginError.EnableError "on_load refused") rfl rfl⟩

/-! ### C3 -/

/-- A fully successful load of plugin `"p"` into a fresh manager. -/
def C3load : Step :=
  PluginManager.new.load_plugin (Except.ok (mkLib (mkPlugin "p" ["e1"])))

/-- C3, counterexample: a successful `load_plugin` does NOT leave the entry
in state `Loaded`: line 135 of `plugin_manager.rs` calls
`self.enable_plugin(name)?` inside `load_plugin`, so on success the entry is
`Enabled` and the `on_enable` hook was invoked by `load_plugin` itself
(trace `[on_load, on_enable]`), not by the caller afterwards. -/
theorem C3_counterexample :
    C3load.result = Except.ok () ∧
    ((lookup' C3load.manager.plugins "p").map (fun e => e.state)) =
      some PluginState.Enabled ∧
    C3load.trace = [HookCall.onLoad "p", HookCall.onEnable "p"] :=
  ⟨rfl, rfl, rfl⟩

/-- C3, amended: on success, `load_plugin` leaves the newly inserted entry in
state `Enabled`: it enables the plugin itself by calling `enable_plugin`
(invoking `on_enable`) immediately after inserting the entry in state
`Loaded`; enabling is not left to the caller. -/
theorem C3_load_success_enables (m : PluginManager) (lib : Library) (pl : Plugin)
    (hc : lib.create_plugin = some pl)
    (hok : (m.load_plugin (Except.ok lib)).result = Except.ok ()) :
    ((lookup' (m.load_plugin (Except.ok lib)).manager.plugins pl.name).map
       (fun e => e.state)) = some PluginState.Enabled ∧
    HookCall.onEnable pl.name ∈ (m.load_plugin (Except.ok lib)).trace := by
  rcases hl : pl.on_load with e | u
  · rw [m.load_plugin_onLoadFail lib pl e hc hl] at hok
    cases hok
  · cases u
    rw [m.load_plugin_ok_hook lib pl hc hl] at hok ⊢
    simp only at hok ⊢
    have hfresh :
        lookup' (insertR m.plugins pl.name ⟨pl, lib, PluginState.Loaded⟩)
          pl.name = some ⟨pl, lib, PluginState.Loaded⟩ :=
      lookup'_insertR_self _ _ _
    rcases he : pl.on_enable with e | u
    · rw [PluginManager.enable_plugin_loaded_err _ pl.name
        ⟨pl, lib, PluginState.Loaded⟩ e hfresh rfl he] at hok
      cases hok
    · cases u
      rw [PluginManager.enable_plugin_loaded_ok _ pl.name
        ⟨pl, lib, PluginState.Loaded⟩ hfresh rfl he]
      simp only
      rw [lookup'_insertR_self]
      exact ⟨rfl, by simp⟩

theorem C3_witness :
    (mkLib (mkPlugin "p" ["e1"])).create_plugin = some (mkPlugin "p" ["e1"]) ∧
    C3load.result = Except.ok () ∧
    (((lookup' C3load.manager.plugins "p").map (fun e => e.state)) =
       some PluginState.Enabled ∧
     HookCall.onEnable "p" ∈ C3load.trace) :=
  ⟨rfl, rfl,
   C3_load_success_enables PluginManager.new (mkLib (mkPlugin "p" ["e1"]))
     (mkPlugin "p" ["e1"]) rfl rfl⟩

/-! ### C10 -/

/-- C10: if the `on_enable` hook fails during `load_plugin`, the error is
returned, yet the plugin stays inserted in the registry in state `Loaded`
and every declared event subscription stays in the `EventBus`: the failed
load is not rolled back. -/
theorem C10_failed_enable_not_rolled_back (m : PluginManager) (lib : Library)
    (pl : Plugin) (e : PluginError)
    (hc : lib.create_plugin = some pl) (hl : pl.on_load = Except.ok ())
    (he : pl.on_enable = Except.error e) :
    (m.load_plugin (Except.ok lib)).result = Except.error e ∧
    ((lookup' (m.load_plugin (Except.ok lib)).manager.plugins pl.name).map
       (fun en => en.state)) = some PluginState.Loaded ∧
    ∀ ev ∈ pl.subscribed_events,
      pl.name ∈
        (m.load_plugin (Except.ok lib)).manager.event_bus.get_subscribers ev := by
  rw [m.load_plugin_ok_hook lib pl hc hl]
  simp only
  rw [PluginManager.enable_plugin_loaded_err _ pl.name
    ⟨pl, lib, PluginState.Loaded⟩ e (lookup'_insertR_self _ _ _) rfl he]
  refine ⟨rfl, ?_, ?_⟩
  · rw [lookup'_insertR_self]
    rfl
  · intro ev hev
    exact mem_get_subscribers_foldl_subscribe _ _ _ _ hev

/-- A plugin whose `on_enable` fails. -/
def C10plugin : Plugin :=
  { mkPlugin "q" ["e1"] with
      on_enable := Except.error (PluginError.EnableError "boom") }

theorem C10_witness :
    (mkLib C10plugin).create_plugin = some C10plugin ∧
    C10plugin.on_load = Except.ok () ∧
    C10plugin.on_enable = Except.error (PluginError.EnableError "boom") ∧
    ((PluginManager.new.load_plugin (Except.ok (mkLib C10plugin))).result =
       Except.error (PluginError.EnableError "boom") ∧
     ((lookup' (PluginManager.new.load_plugin
          (Except.ok (mkLib C10plugin))).manager.plugins "q").map
        (fun en => en.state)) = some PluginState.Loaded ∧
     ∀ ev ∈ C10plugin.subscribed_events,
       "q" ∈ (PluginManager.new.load_plugin
          (Except.ok (mkLib C10plugin))).manager.event_bus.get_subscribers ev) :=
  ⟨rfl, rfl, rfl,
   C10_failed_enable_not_rolled_back PluginManager.new (mkLib C10plugin)
     C10plugin (PluginError.EnableError "boom") rfl rfl rfl⟩

/-! ### C4 -/

/-- First load: plugin named `"p"` subscribing to `"e1"`. -/
def dupLoad1 : Step :=
  PluginManager.new.load_plugin (Except.ok (mkLib (mkPlugin "p" ["e1"])))

/-- Second load: a different module whose plugin also reports name `"p"`,
subscribing to `"e2"`. `HashMap::insert` replaces the existing entry. -/
def dupLoad2 : Step :=
  dupLoad1.manager.load_plugin (Except.ok (mkLib (mkPlugin "p" ["e2"])))

/-- C4, counterexample: a second successful `load_plugin` of a module whose
plugin reports an already-registered name drops the existing entry: after
the two loads the registry binding for `"p"` holds the second plugin
(subscribed to `["e2"]`), the entry holding the first plugin (subscribed to
`["e1"]`) is gone, and no unload was involved (neither trace contains an
`on_unload` invocation). -/
theorem C4_counterexample :
    dupLoad1.result = Except.ok () ∧
    dupLoad2.result = Except.ok () ∧
    (dupLoad1.manager.get_plugin "p").map (fun p => p.subscribed_events) =
      some ["e1"] ∧
    (dupLoad2.manager.get_plugin "p").map (fun p => p.subscribed_events) =
      some ["e2"] ∧
    HookCall.onUnload "p" ∉ dupLoad1.trace ++ dupLoad2.trace := by
  refine ⟨rfl, rfl, rfl, rfl, ?_⟩
  decide

/-- C4, amended: no operation other than `unload_plugin` removes a *name*
from the registry: `enable_plugin` and `disable_plugin` preserve the
presence of every binding, and `load_plugin` preserves the presence of every
registered name and leaves every binding other than the loaded plugin's
reported name unchanged — but a `load_plugin` of a module whose plugin
reports an already-registered name replaces (drops) the existing entry under
that name. -/
theorem C4_no_removal_except_unload :
    (∀ (m : PluginManager) (name n : String),
        (lookup' (m.enable_plugin name).manager.plugins n).isSome =
          (lookup' m.plugins n).isSome) ∧
    (∀ (m : PluginManager) (name n : String),
        (lookup' (m.disable_plugin name).manager.plugins n).isSome =
          (lookup' m.plugins n).isSome) ∧
    (∀ (m : PluginManager) (input : Except String Library) (n : String),
        (lookup' m.plugins n).isSome = true →
        (lookup' (m.load_plugin input).manager.plugins n).isSome = true) ∧
    (∀ (m : PluginManager) (lib : Library) (pl : Plugin) (n : String),
        lib.create_plugin = some pl → n ≠ pl.name →
        lookup' (m.load_plugin (Except.ok lib)).manager.plugins n =
          lookup' m.plugins n) :=
  ⟨PluginManager.enable_plugin_preserves_isSome,
   PluginManager.disable_plugin_preserves_isSome,
   PluginManager.load_plugin_preserves_present,
   fun m lib pl n hc hn => PluginManager.load_plugin_preserves_other m lib pl n hc hn⟩

theorem C4_witness :
    ((lookup' C1enabledMgr.plugins "p").isSome = true ∧
     (lookup' (C1enabledMgr.load_plugin
         (Except.ok (mkLib (mkPlugin "z" [])))).manager.plugins "p").isSome =
       true) ∧
    ((mkLib (mkPlugin "z" [])).create_plugin = some (mkPlugin "z" []) ∧
     "p" ≠ (mkPlugin "z" []).name ∧
     lookup' (C1enabledMgr.load_plugin
         (Except.ok (mkLib (mkPlugin "z" [])))).manager.plugins "p" =
       lookup' C1enabledMgr.plugins "p") :=
  ⟨⟨rfl,
    C4_no_removal_except_unload.2.2.1 C1enabledMgr
      (Except.ok (mkLib (mkPlugin "z" []))) "p" rfl⟩,
   ⟨rfl, by decide,
    C4_no_removal_except_unload.2.2.2 C1enabledMgr (mkLib (mkPlugin "z" []))
      (mkPlugin "z" []) "p" rfl (by decide)⟩⟩

/-! ### C5 -/

/-- Unloading `"p"` after the duplicate-name reload of `dupLoad2`. -/
def dupUnload : Step := dupLoad2.manager.unload_plugin "p"

/-- C5, counterexample: after the duplicate-name reload, `unload_plugin "p"`
returns success and removes the registry entry, yet `"p"` is still present
in the subscriber set of `"e1"`: the unload unsubscribed only the events of
the current entry's plugin (`["e2"]`), not the stale subscription left by
the replaced first plugin. -/
theorem C5_counterexample :
    dupLoad2.result = Except.ok () ∧
    (lookup' dupLoad2.manager.plugins "p").isSome = true ∧
    dupUnload.result = Except.ok () ∧
    (lookup' dupUnload.manager.plugins "p").isSome = false ∧
    "p" ∈ dupUnload.manager.event_bus.get_subscribers "e1" := by
  refine ⟨rfl, rfl, rfl, rfl, ?_⟩
  decide

/-- Helper: when the disable step succeeds, `unload_plugin` removes the
binding and its resulting bus is the snapshot-unsubscribed bus. -/
theorem unload_plugin_ok_state (m : PluginManager) (name : String)
    (entry : PluginEntry) (h : lookup' m.plugins name = some entry)
    (hd : entry.state = PluginState.Disabled ∨
          (entry.state = PluginState.Enabled ∧
           entry.plugin.on_disable = Except.ok ())) :
    lookup' (m.unload_plugin name).manager.plugins name = none ∧
    (m.unload_plugin name).manager.event_bus =
      entry.plugin.subscribed_events.foldl
        (fun b ev => b.unsubscribe ev name) m.event_bus := by
  unfold PluginManager.unload_plugin
  rw [h]
  rcases hd with hs | ⟨hs, hh⟩
  · rw [PluginManager.disable_plugin_disabled m name entry h hs]
    simp only
    rw [h]
    rcases hu : entry.plugin.on_unload with e | u <;>
      simp [hu, lookup'_eraseK_self]
  · rw [PluginManager.disable_plugin_enabled_ok m name entry h hs hh]
    simp only
    rw [lookup'_insertR_self]
    rcases hu : entry.plugin.on_unload with e | u <;>
      simp [hu, lookup'_eraseK_self]

/-- C5, amended: if `unload_plugin name` returns success for a registered
name, then `name` is absent from the registry afterwards, and — provided
every event in whose subscriber set `name` appeared was among the entry's
declared `subscribed_events` (the invariant a duplicate-name reload breaks)
— `name` is afterwards absent from every event's subscriber set. -/
theorem C5_unload_success_cleanup (m : PluginManager) (name : String)
    (entry : PluginEntry) (h : lookup' m.plugins name = some entry)
    (hbus : ∀ ev, name ∈ m.event_bus.get_subscribers ev →
        ev ∈ entry.plugin.subscribed_events)
    (hok : (m.unload_plugin name).result = Except.ok ()) :
    lookup' (m.unload_plugin name).manager.plugins name = none ∧
    ∀ ev, name ∉ (m.unload_plugin name).manager.event_bus.get_subscribers ev := by
  have hd : entry.state = PluginState.Disabled ∨
      (entry.state = PluginState.Enabled ∧
       entry.plugin.on_disable = Except.ok ()) := by
    by_cases hs : entry.state = PluginState.Disabled
    · exact Or.inl hs
    · by_cases he : entry.state = PluginState.Enabled
      · rcases hh : entry.plugin.on_disable with e | u
        · exfalso
          unfold PluginManager.unload_plugin at hok
          rw [h] at hok
          rw [PluginManager.disable_plugin_enabled_err m name entry e h he hh]
            at hok
          simp at hok
        · cases u
          exact Or.inr ⟨he, rfl⟩
      · exfalso
        unfold PluginManager.unload_plugin at hok
        rw [h] at hok
        rw [PluginManager.disable_plugin_other m name entry h hs he] at hok
        simp at hok
  obtain ⟨hreg, hbuseq⟩ := unload_plugin_ok_state m name entry h hd
  refine ⟨hreg, ?_⟩
  intro ev
  rw [hbuseq]
  apply not_mem_get_subscribers_foldl_unsubscribe
  by_cases hm : name ∈ m.event_bus.get_subscribers ev
  · exact Or.inl (hbus ev hm)
  · exact Or.inr hm

/-- A registered, enabled plugin `"p"` with a consistent bus, for the C5
witness. -/
def C5entry : PluginEntry :=
  ⟨mkPlugin "p" ["e1"], mkLib (mkPlugin "p" ["e1"]), PluginState.Enabled⟩

def C5mgr : PluginManager := ⟨[("p", C5entry)], ⟨[("e1", ["p"])]⟩⟩

theorem C5_witness :
    lookup' C5mgr.plugins "p" = some C5entry ∧
    (C5mgr.unload_plugin "p").result = Except.ok () ∧
    (lookup' (C5mgr.unload_plugin "p").manager.plugins "p" = none ∧
     ∀ ev, "p" ∉ (C5mgr.unload_plugin "p").manager.event_bus.get_subscribers ev) :=
  ⟨rfl, rfl,
   C5_unload_success_cleanup C5mgr "p" C5entry rfl
     (by
       intro ev hm
       by_cases he : ev = "e1"
       · subst he
         simp [C5entry, mkPlugin]
       · exfalso
         simp [C5mgr, EventBus.get_subscribers, lookup', Ne.symm he] at hm)
     rfl⟩

/-! ### C6 -/

/-- The `errors` vector collected by the directory loop of
`load_all_plugins`. -/
def batchErrors (m : PluginManager) (es : List DirEntry) : List String :=
  (es.foldl loadAllStep ⟨m, [], []⟩).errors

theorem loadAllStep_preserves_present (acc : BatchAcc) (e : DirEntry) (n : String)
    (h : (lookup' acc.manager.plugins n).isSome = true) :
    (lookup' (loadAllStep acc e).manager.plugins n).isSome = true := by
  rcases e with msg | ⟨path, valid, input⟩
  · exact h
  · rcases valid with _ | _
    · exact h
    · unfold loadAllStep
      simp only
      rcases hr : (acc.manager.load_plugin input).result with er | u <;>
        simp only [hr] <;>
        exact PluginManager.load_plugin_preserves_present _ _ _ h

theorem foldl_loadAllStep_preserves_present (es : List DirEntry) (acc : BatchAcc)
    (n : String) (h : (lookup' acc.manager.plugins n).isSome = true) :
    (lookup' (es.foldl loadAllStep acc).manager.plugins n).isSome = true := by
  induction es generalizing acc with
  | nil => exact h
  | cons e es ih =>
      simp only [List.foldl_cons]
      exact ih _ (loadAllStep_preserves_present acc e n h)

theorem loadAllStep_good_file (acc : BatchAcc) (path : String) (lib : Library)
    (pl : Plugin) (hc : lib.create_plugin = some pl)
    (hl : pl.on_load = Except.ok ()) :
    (lookup' (loadAllStep acc
        (DirEntry.file path true (Except.ok lib))).manager.plugins
      pl.name).isSome = true := by
  unfold loadAllStep
  simp only
  rcases hr : (acc.manager.load_plugin (Except.ok lib)).result with er | u <;>
    simp only [hr] <;>
    exact PluginManager.load_plugin_inserts _ _ _ hc hl

theorem load_all_plugins_manager (m : PluginManager) (es : List DirEntry) :
    (m.load_all_plugins (Directory.entries es)).manager =
      (es.foldl loadAllStep ⟨m, [], []⟩).manager := by
  simp only [PluginManager.load_all_plugins]
  split <;> rfl

theorem load_all_plugins_result (m : PluginManager) (es : List DirEntry) :
    (m.load_all_plugins (Directory.entries es)).result =
      if batchErrors m es = [] then Except.ok ()
      else
        Except.error (PluginError.LoadError
          ("Failed to load some plugins:\n" ++
            String.intercalate "\n" (batchErrors m es))) := by
  simp only [PluginManager.load_all_plugins, batchErrors]
  split <;> simp_all

/-- C6: `load_all_plugins` over an existing, readable directory processes
every entry even when earlier ones failed: its result is success iff the
collected error vector is empty, otherwise a single aggregate `LoadError`
joining all collected failure messages; and every file accepted by the
validity filter whose library opens, exports `create_plugin` and whose
`on_load` succeeds ends up registered under its plugin's name, regardless
of failures among the surrounding entries — partial success is kept. -/
theorem C6_load_all_partial_success (m : PluginManager) (es : List DirEntry) :
    ((m.load_all_plugins (Directory.entries es)).result = Except.ok () ↔
       batchErrors m es = []) ∧
    (batchErrors m es ≠ [] →
       (m.load_all_plugins (Directory.entries es)).result =
         Except.error (PluginError.LoadError
           ("Failed to load some plugins:\n" ++
             String.intercalate "\n" (batchErrors m es)))) ∧
    (∀ (es1 : List DirEntry) (path : String) (lib : Library) (pl : Plugin)
        (es2 : List DirEntry),
        es = es1 ++ DirEntry.file path true (Except.ok lib) :: es2 →
        lib.create_plugin = some pl → pl.on_load = Except.ok () →
        (lookup' (m.load_all_plugins (Directory.entries es)).manager.plugins
          pl.name).isSome = true) := by
  refine ⟨?_, ?_, ?_⟩
  · rw [load_all_plugins_result]
    by_cases hbe : batchErrors m es = [] <;> simp [hbe]
  · intro hne
    rw [load_all_plugins_result]
    simp [hne]
  · intro es1 path lib pl es2 hes hc hl
    rw [load_all_plugins_manager]
    subst hes
    rw [List.foldl_append, List.foldl_cons]
    exact foldl_loadAllStep_preserves_present es2 _ pl.name
      (loadAllStep_good_file _ path lib pl hc hl)

def C6goodPlugin : Plugin := mkPlugin "g" []

/-- A directory listing with one file that fails to open and one valid
module. -/
def C6es : List DirEntry :=
  [DirEntry.file "bad.so" true (Except.error "nope"),
   DirEntry.file "good.so" true (Except.ok (mkLib C6goodPlugin))]

theorem C6_witness :
    batchErrors PluginManager.new C6es ≠ [] ∧
    (PluginManager.new.load_all_plugins (Directory.entries C6es)).result =
      Except.error (PluginError.LoadError
        ("Failed to load some plugins:\n" ++
          String.intercalate "\n" (batchErrors PluginManager.new C6es))) ∧
    (lookup' (PluginManager.new.load_all_plugins
        (Directory.entries C6es)).manager.plugins "g").isSome = true := by
  have hne : batchErrors PluginManager.new C6es ≠ [] := by decide
  exact ⟨hne,
    (C6_load_all_partial_success PluginManager.new C6es).2.1 hne,
    (C6_load_all_partial_success PluginManager.new C6es).2.2
      [DirEntry.file "bad.so" true (Except.error "nope")] "good.so"
      (mkLib C6goodPlugin) C6goodPlugin [] rfl rfl rfl⟩

/-! ### C9 -/

/-- C9 (on the spec-modelled `broadcast_event`): every `handle_event`
delivery of the broadcast goes to a plugin that is registered, currently in
state `Enabled`, and a subscriber of the event's name — plugins that are
`Loaded`, `Disabled`, or absent from the registry are never delivered to. -/
theorem C9_broadcast_only_enabled (m : PluginManager) (event : Event)
    (name : String)
    (h : HookCall.handleEvent name event.name ∈ (m.broadcast_event event).trace) :
    ∃ entry, lookup' m.plugins name = some entry ∧
      entry.state = PluginState.Enabled ∧
      name ∈ m.event_bus.get_subscribers event.name := by
  unfold PluginManager.broadcast_event at h
  simp only at h
  rcases List.mem_map.mp h with ⟨pr, hmem, heq⟩
  have hname : pr.1 = name := by
    injection heq
  have hmem2 : pr ∈ (m.event_bus.get_subscribers event.name).filterMap
      (fun name =>
        match lookup' m.plugins name with
        | some entry =>
            if entry.state = PluginState.Enabled then some (name, entry) else none
        | none => none) :=
    (List.mergeSort_perm _ _).mem_iff.mp hmem
  rcases List.mem_filterMap.mp hmem2 with ⟨sub, hsub, hfm⟩
  obtain ⟨pn, pe⟩ := pr
  simp only at hname
  subst hname
  rcases hl : lookup' m.plugins sub with _ | entry
  · rw [hl] at hfm
    simp at hfm
  · rw [hl] at hfm
    by_cases hs : entry.state = PluginState.Enabled
    · simp [hs] at hfm
      obtain ⟨hsn, hep⟩ := hfm
      subst hsn
      exact ⟨entry, hl, hs, hsub⟩
    · simp [hs] at hfm

theorem C9_witness :
    HookCall.handleEvent "p" "e1" ∈
      (C5mgr.broadcast_event ⟨"e1", [], 0⟩).trace ∧
    ∃ entry, lookup' C5mgr.plugins "p" = some entry ∧
      entry.state = PluginState.Enabled ∧
      "p" ∈ C5mgr.event_bus.get_subscribers "e1" := by
  have hmem : HookCall.handleEvent "p" "e1" ∈
      (C5mgr.broadcast_event ⟨"e1", [], 0⟩).trace := by
    unfold PluginManager.broadcast_event
    simp only
    rw [show (C5mgr.event_bus.get_subscribers "e1") = ["p"] from rfl]
    rw [show (["p"].filterMap (fun name =>
      match lookup' C5mgr.plugins name with
      | some entry =>
          if entry.state = PluginState.Enabled then some (name, entry) else none
      | none => none)) = [("p", C5entry)] from rfl]
    rw [List.mergeSort_singleton]
    simp
  exact ⟨hmem, C9_broadcast_only_enabled C5mgr ⟨"e1", [], 0⟩ "p" hmem⟩

end MainLoader
